import Mathlib

/-!
# Verification of the terminal session engine (`TerminalManager`)

Shallow embedding of the session engine of this repository:
the `TerminalManager` class (session registry, output buffer,
completion detector, reaper) together with the configuration constants
it reads (`TERMINAL_CONFIG`, `TERMINAL_REGEX`).

Conventions of the embedding:
* JS `Map<string, Session>` becomes an association list `Registry`
  (insertion order preserved, first match on lookup, as in a JS `Map`
  whose keys are unique).
* In-place mutation of a session object becomes a registry update
  keyed by the session id.
* The pty process handle is modeled by its pid plus a log `ptyWrites`
  of the strings written to it; outcomes of external side effects
  (`pty.spawn`, `ptyProcess.kill`) are passed in as parameters.
* Timestamps (`Date`) are naturals (milliseconds).
* Thrown JS errors become an error type `TmError`; stateful operations
  return the (possibly unchanged) registry next to the `Except` result.
-/

/-- Errors thrown by the session engine, one constructor per `throw`
site of `TerminalManager` / `AppConfig` (messages in the source:
`会话不存在`, `会话已关闭`, `需要绝对路径`, `不支持的终端类型`, `超时`),
plus the spawn failure that propagates out of `pty.spawn`. -/
inductive TmError where
  | notFound (sessionId : String)
  | sessionClosed (sessionId : String)
  | invalidArgument
  | unsupportedType (terminalType : String)
  | spawnFailed (message : String)
  | timedOut (command : String)
  deriving Repr, DecidableEq

/-- Session state, from `_createSessionData`: the pty process is
represented by its `pid` and the log `ptyWrites` of data written to it;
`exitCode` is the field set by `_handleSessionExit`. -/
structure Session where
  id : String
  pid : Nat
  output : List String
  status : String
  type : String
  cwd : String
  createdAt : Nat
  lastActivity : Nat
  exitCode : Option Int := none
  ptyWrites : List String := []
  deriving Repr, DecidableEq

/-- The session registry `this.sessions` (a JS `Map` in insertion
order). -/
abbrev Registry := List (String × Session)

/-- Embeds `this.sessions.get(id)` — first entry with the given key. -/
def regGet : Registry → String → Option Session
  | [], _ => none
  | (k, v) :: rest, sid => if k = sid then some v else regGet rest sid

/-- In-place mutation of the session object stored under `sid`
(JS object mutation through the reference held by the `Map`). -/
def regUpdate (f : Session → Session) : Registry → String → Registry
  | [], _ => []
  | (k, v) :: rest, sid =>
    if k = sid then (k, f v) :: regUpdate f rest sid
    else (k, v) :: regUpdate f rest sid

/-- Embeds `this.sessions.set(id, session)` — replace in place if the key is
present, else append. -/
def regSet (reg : Registry) (sid : String) (s : Session) : Registry :=
  if (regGet reg sid).isSome then
    reg.map (fun p => if p.1 = sid then (sid, s) else p)
  else reg ++ [(sid, s)]

/-- Embeds `this.sessions.delete(id)`. -/
def regDelete : Registry → String → Registry
  | [], _ => []
  | (k, v) :: rest, sid =>
    if k = sid then regDelete rest sid else (k, v) :: regDelete rest sid

/-- The keys of the registry are pairwise distinct — holds for every
registry built through `Map.set`, which never duplicates a key. -/
def keysNodup (reg : Registry) : Prop := (reg.map Prod.fst).Nodup

/-! ## Configuration constants (`TERMINAL_CONFIG` in the config module) -/

/-- Constant `TERMINAL_CONFIG.MAX_OUTPUT_LINES`. -/
def MAX_OUTPUT_LINES : Nat := 1000

/-- Constant `TERMINAL_CONFIG.SESSION_TIMEOUT` (1 hour, in ms). -/
def SESSION_TIMEOUT : Nat := 3600000

/-- Constant `TERMINAL_CONFIG.CLEANUP_INTERVAL` (10 minutes, in ms). -/
def CLEANUP_INTERVAL : Nat := 600000

/-- Constant `TERMINAL_CONFIG.DEFAULT_TIMEOUT` for `executeCommand` (ms). -/
def DEFAULT_TIMEOUT : Nat := 5000

/-- Constant `TERMINAL_CONFIG.DEFAULT_TYPE`. -/
def DEFAULT_TYPE : String := "powershell"

/-- The delay of `_scheduleSessionDeletion`:
`setTimeout(() => this.sessions.delete(sessionId), 5000)`. -/
def scheduleDeletionDelay : Nat := 5000

/-! ## Output buffer -/

/-- Embeds `data.split(/\r?\n/)` — split on `\n`, optionally preceded by `\r`;
a lone `\r` is not a separator.  Like the JS `split`, the result always
has one more element than the number of separators (so trailing `\n`
yields a trailing empty line). -/
def splitLinesAux : List Char → List Char → List String
  | [], acc => [String.mk acc.reverse]
  | '\r' :: '\n' :: rest, acc => String.mk acc.reverse :: splitLinesAux rest []
  | '\n' :: rest, acc => String.mk acc.reverse :: splitLinesAux rest []
  | c :: rest, acc => splitLinesAux rest (c :: acc)

/-- Embeds `data.split(/\r?\n/)` on a string. -/
def splitLines (s : String) : List String := splitLinesAux s.data []

/-- Embeds `_addOutputLines(session, newLines)`: push the new lines, then if
the length exceeds `maxLines`, `splice(0, excess)` — drop the oldest
excess lines from the front. -/
def addOutputLines (maxLines : Nat) (output newLines : List String) : List String :=
  let o := output ++ newLines
  if o.length > maxLines then o.drop (o.length - maxLines) else o

/-- The last `m` elements of a list (all of it when it is shorter). -/
def lastN (m : Nat) (l : List String) : List String := l.drop (l.length - m)

/-- Embeds `appendOutput(sessionId, data)`: no-op when the session id is not
in the registry; otherwise split the data into lines, append them under
the line cap, and update `lastActivity` (`_updateSessionActivity`). -/
def appendOutput (maxLines now : Nat) (reg : Registry) (sid data : String) : Registry :=
  match regGet reg sid with
  | none => reg
  | some _ =>
    regUpdate
      (fun s => { s with
        output := addOutputLines maxLines s.output (splitLines data),
        lastActivity := now })
      reg sid

/-! ## Prompt recognition (`TERMINAL_REGEX` and `_hasPrompt`)

The three regular expressions of the config module are embedded as
executable matchers over the character list of the text.  `\s` is
modeled by the ASCII whitespace characters. -/

/-- A character of the JS `\s` class (ASCII part). -/
def isSpaceChar (c : Char) : Bool :=
  c = ' ' || c = '\t' || c = '\n' || c = '\r' || c = '\x0b' || c = '\x0c'

/-- Pattern `GENERIC_PROMPT = />\s*$/`: the text ends in `>` followed only by
whitespace. -/
def genericPromptTest (s : String) : Bool :=
  match s.data.reverse.dropWhile isSpaceChar with
  | '>' :: _ => true
  | _ => false

/-- Scan for `[A-Za-z]:\` with no `>` after the backslash, anywhere in
the body (the part of the text before the final `>`). -/
def cmdCore : List Char → Bool
  | a :: ':' :: '\\' :: rest =>
    (a.isAlpha && rest.all (fun c => c ≠ '>')) || cmdCore (':' :: '\\' :: rest)
  | _ :: rest => cmdCore rest
  | [] => false

/-- Pattern `CMD_PROMPT = /[A-Za-z]:\\[^>]*>\s*$/i`: a drive letter, `:`, `\`,
then no `>` until a final `>` that is followed only by whitespace. -/
def cmdPromptTest (s : String) : Bool :=
  match s.data.reverse.dropWhile isSpaceChar with
  | '>' :: revBody => cmdCore revBody.reverse
  | _ => false

/-- After `PS` and at least one whitespace: skip further whitespace,
then require `[A-Za-z]:\` with no `>` to the end of the body. -/
def psAfterSpaces : List Char → Bool
  | a :: ':' :: '\\' :: v =>
    if isSpaceChar a then psAfterSpaces (':' :: '\\' :: v)
    else a.isAlpha && v.all (fun c => c ≠ '>')
  | c :: rest => if isSpaceChar c then psAfterSpaces rest else false
  | [] => false

/-- Matches `\s+` then the drive-letter path, for the PowerShell pattern. -/
def psSpaces : List Char → Bool
  | c :: rest => isSpaceChar c && psAfterSpaces rest
  | [] => false

/-- Scan for `PS` (case-insensitive) followed by `\s+[A-Za-z]:\[^>]*`
reaching the end of the body. -/
def psCore : List Char → Bool
  | p :: s :: rest =>
    ((p = 'P' || p = 'p') && (s = 'S' || s = 's') && psSpaces rest) ||
      psCore (s :: rest)
  | _ => false

/-- Pattern `PS_PROMPT = /PS\s+[A-Z]:\\[^>]*>\s*$/i`: `PS`, whitespace, a
drive-letter path without `>`, then a final `>` followed only by
whitespace. -/
def psPromptTest (s : String) : Bool :=
  match s.data.reverse.dropWhile isSpaceChar with
  | '>' :: revBody => psCore revBody.reverse
  | _ => false

/-- Embeds `_hasPrompt(terminalType, text)`: the PowerShell pattern for
`powershell`, otherwise the CMD pattern or the generic fallback. -/
def hasPrompt (terminalType text : String) : Bool :=
  if terminalType = "powershell" then psPromptTest text
  else cmdPromptTest text || genericPromptTest text

/-! ## ANSI escape stripping (`.replace(/\u001b\[[0-9;]*[mGKH]/g, '')`) -/

/-- A parameter character of the ANSI pattern, `[0-9;]`. -/
def isAnsiParam (c : Char) : Bool := c.isDigit || c = ';'

/-- A final character of the ANSI pattern, `[mGKH]`. -/
def isAnsiFinal (c : Char) : Bool := c = 'm' || c = 'G' || c = 'K' || c = 'H'

/-- After the `\u001b`: consume `[`, then `[0-9;]*`, then one of
`mGKH`; return the remainder, or `none` when the pattern fails. -/
def ansiSeqEnd (l : List Char) : Option (List Char) :=
  match l with
  | '[' :: rest =>
    match rest.dropWhile isAnsiParam with
    | c :: t => if isAnsiFinal c then some t else none
    | [] => none
  | _ => none

/-- Left-to-right global replace of the ANSI pattern by the empty
string; `fuel` bounds the recursion and every step consumes at least
one character, so `fuel = length` is always enough. -/
def stripAnsiAux : Nat → List Char → List Char
  | 0, l => l
  | _ + 1, [] => []
  | fuel + 1, c :: rest =>
    if c = '\x1b' then
      match ansiSeqEnd rest with
      | some t => stripAnsiAux fuel t
      | none => c :: stripAnsiAux fuel rest
    else c :: stripAnsiAux fuel rest

/-- Embeds `text.replace(/\u001b\[[0-9;]*[mGKH]/g, '')`. -/
def stripAnsiStr (s : String) : String :=
  String.mk (stripAnsiAux s.data.length s.data)

/-! ## Completion detector (`executeCommand` and its helpers) -/

/-- The mutable part of `_createExecutionContext` relevant to the poll
loop (the timer id and the promise callbacks carry no session state). -/
structure ExecCtx where
  startLength : Nat
  lastLength : Nat
  stableCount : Nat
  deriving Repr, DecidableEq

/-- Embeds `_createExecutionContext`: record the buffer length before the
command is written; the stability counter starts at 0. -/
def createExecutionContext (startLength : Nat) : ExecCtx :=
  { startLength := startLength, lastLength := startLength, stableCount := 0 }

/-- Embeds `_updateStabilityCounter`: increment while the buffer length is
unchanged since the previous poll, else reset to 0 and remember the
new length. -/
def updateStabilityCounter (ctx : ExecCtx) (currentLength : Nat) : ExecCtx :=
  if currentLength = ctx.lastLength then
    { ctx with stableCount := ctx.stableCount + 1 }
  else
    { ctx with stableCount := 0, lastLength := currentLength }

/-- Embeds `currentOutput.slice(-2).join('')` — the last one or two lines,
concatenated without separator. -/
def lastTwoJoined (l : List String) : String :=
  String.join (l.drop (l.length - 2))

/-- Embeds `_isCommandComplete`: needs at least one stable poll and a
non-empty slice, then matches the ANSI-stripped last two lines against
the terminal-type-specific prompt pattern. -/
def isCommandComplete (tmType : String) (ctx : ExecCtx) (currentOutput : List String) : Bool :=
  if ctx.stableCount < 1 || currentOutput.length = 0 then false
  else hasPrompt tmType (stripAnsiStr (lastTwoJoined currentOutput))

/-- One invocation of `_checkCommandCompletion` on the buffer snapshot
`output`: update the stability counter, then either resolve with the
slice since `startLength` or continue with the updated context. -/
def checkCommandCompletion (tmType : String) (ctx : ExecCtx) (output : List String) :
    ExecCtx × Option (List String) :=
  let currentOutput := output.drop ctx.startLength
  let currentLength := output.length
  let ctx2 := updateStabilityCounter ctx currentLength
  if isCommandComplete tmType ctx2 currentOutput then (ctx2, some currentOutput)
  else (ctx2, none)

/-- The poll loop of `executeCommand`, run over the successive buffer
snapshots seen at the poll instants (50 ms apart in the source): the
first poll whose completion check succeeds resolves the promise with
the output slice. -/
def pollRun (tmType : String) : ExecCtx → List (List String) → Option (List String)
  | _, [] => none
  | ctx, out :: rest =>
    match checkCommandCompletion tmType ctx out with
    | (_, some res) => some res
    | (ctx2, none) => pollRun tmType ctx2 rest

/-! ## Session lookup and the fast operations -/

/-- Embeds `_getSession`: throws `会话不存在` (NotFound) when the id is absent. -/
def getSession (reg : Registry) (sid : String) : Except TmError Session :=
  match regGet reg sid with
  | none => .error (.notFound sid)
  | some s => .ok s

/-- Embeds `_getActiveSession`: additionally throws `会话已关闭`
(SessionClosed) when the status is not `active`. -/
def getActiveSession (reg : Registry) (sid : String) : Except TmError Session :=
  match getSession reg sid with
  | .error e => .error e
  | .ok s => if s.status = "active" then .ok s else .error (.sessionClosed sid)

/-- Embeds `readSessionOutput`: a copy of the output lines of the session. -/
def readSessionOutput (reg : Registry) (sid : String) : Except TmError (List String) :=
  match getSession reg sid with
  | .error e => .error e
  | .ok s => .ok s.output

/-- Embeds `writeToSession(sessionId, input, addNewline)`: on an active
session, write `input + '\r'` (or `input`) to the pty and update
`lastActivity`; otherwise fail without touching anything.  The first
component is the registry after the call. -/
def writeToSession (now : Nat) (reg : Registry) (sid input : String) (addNewline : Bool) :
    Registry × Except TmError Unit :=
  match getActiveSession reg sid with
  | .error e => (reg, .error e)
  | .ok _ =>
    let dataToWrite := if addNewline then input ++ "\r" else input
    (regUpdate
      (fun s => { s with ptyWrites := s.ptyWrites ++ [dataToWrite], lastActivity := now })
      reg sid, .ok ())

/-- The synchronous prefix of `executeCommand`: `_getActiveSession`,
then `_createExecutionContext` (recording the buffer length before the
write), then the `writeToSession` performed by
`_startCommandExecution`.  The polling that follows is `pollRun`. -/
def executeCommandStart (now : Nat) (reg : Registry) (sid command : String) :
    Registry × Except TmError ExecCtx :=
  match getActiveSession reg sid with
  | .error e => (reg, .error e)
  | .ok s =>
    let ctx := createExecutionContext s.output.length
    let (reg2, r) := writeToSession now reg sid command true
    match r with
    | .error e => (reg2, .error e)
    | .ok _ => (reg2, .ok ctx)

/-! ## Session creation (`createSession` and its helpers) -/

/-- Embeds `_createSessionData`. -/
def createSessionData (sid : String) (pid : Nat) (terminalType cwd : String) (now : Nat) :
    Session :=
  { id := sid, pid := pid, output := [], status := "active", type := terminalType,
    cwd := cwd, createdAt := now, lastActivity := now }

/-- Embeds `_createSessionResult`. -/
structure SessionResult where
  sessionId : String
  type : String
  cwd : String
  status : String
  pid : Nat
  deriving Repr, DecidableEq

/-- Embeds `AppConfig.getShellPath`: the static path table, throwing on an
unsupported terminal type. -/
def getShellPath (terminalType : String) : Except TmError String :=
  if terminalType = "powershell" then .ok "C:\\Program Files\\PowerShell\\7\\pwsh.exe"
  else if terminalType = "cmd" then .ok "cmd.exe"
  else .error (.unsupportedType terminalType)

/-- Embeds `_validateWorkingDirectory`: `!cwd || !path.isAbsolute(cwd)` throws
`需要绝对路径`.  The absolute-path test of the `path` library is a
parameter `isAbs`; a missing argument is `none`, and the empty string
is falsy in JS. -/
def validateWorkingDirectory (isAbs : String → Bool) (cwd : Option String) : Bool :=
  match cwd with
  | none => false
  | some c => !(c = "") && isAbs c

/-- Embeds `createSession(type, cwd, id)`: validate the directory, resolve the
type/id defaults, resolve the shell path, spawn (outcome passed in as
`spawn`), and only then register the session.  The first component is
the registry after the call: on every failure path it is returned
unchanged. -/
def createSession (isAbs : String → Bool) (spawn : String → String → Except String Nat)
    (reg : Registry) (typeArg : Option String) (cwd : Option String)
    (idArg : Option String) (freshId : String) (now : Nat) :
    Registry × Except TmError SessionResult :=
  if !validateWorkingDirectory isAbs cwd then (reg, .error .invalidArgument)
  else
    let c := cwd.getD ""
    let terminalType := typeArg.getD DEFAULT_TYPE
    let sessionId := idArg.getD freshId
    match getShellPath terminalType with
    | .error e => (reg, .error e)
    | .ok shell =>
      match spawn shell c with
      | .error msg => (reg, .error (.spawnFailed msg))
      | .ok pid =>
        let session := createSessionData sessionId pid terminalType c now
        (regSet reg sessionId session,
         .ok { sessionId := sessionId, type := terminalType, cwd := c,
               status := "active", pid := pid })

/-! ## Reaper (`cleanup` and its helpers) -/

/-- Embeds `_shouldCleanupSession`: closed, or idle longer than the session
timeout.  `now - lastActivity` is the JS date difference; for a
`lastActivity` in the future both the JS comparison (negative number)
and the truncated natural subtraction yield `false`. -/
def shouldCleanupSession (timeoutMs now : Nat) (s : Session) : Bool :=
  s.status = "closed" || decide (now - s.lastActivity > timeoutMs)

/-- Embeds `_identifySessionsForCleanup`: the ids of the sessions to delete,
in registry order.  (The source also best-effort kills the still-active
ones — a pty side effect with no session-field change, see
`_killActiveSession`.) -/
def identifySessionsForCleanup (timeoutMs now : Nat) : Registry → List String
  | [] => []
  | (k, v) :: rest =>
    if shouldCleanupSession timeoutMs now v then
      k :: identifySessionsForCleanup timeoutMs now rest
    else identifySessionsForCleanup timeoutMs now rest

/-- Embeds `_cleanupSessions`: delete each identified id from the registry. -/
def cleanupSessions (reg : Registry) (sids : List String) : Registry :=
  sids.foldl regDelete reg

/-- Embeds `cleanup()`: one reaper sweep at time `now`. -/
def cleanup (timeoutMs now : Nat) (reg : Registry) : Registry :=
  cleanupSessions reg (identifySessionsForCleanup timeoutMs now reg)

/-! ## Close-all (`closeAllSessions` and its helpers) -/

/-- Embeds `_createClosedSessionInfo`. -/
structure ClosedInfo where
  sessionId : String
  type : String
  cwd : String
  deriving Repr, DecidableEq

/-- Embeds `_createFailedSessionInfo` (`error` is the kill error message). -/
structure FailedInfo where
  sessionId : String
  error : String
  deriving Repr, DecidableEq

/-- The outcome of `_closeSessionsBatch`: the registry after the batch,
the two report lists, and the deletions scheduled by
`_scheduleSessionDeletion` as (id, delay) pairs. -/
structure BatchResult where
  reg : Registry
  closed : List ClosedInfo
  failed : List FailedInfo
  scheduled : List (String × Nat)
  deriving Repr, DecidableEq

/-- Embeds `_getActiveSessions`. -/
def getActiveSessions (reg : Registry) : List Session :=
  (reg.map Prod.snd).filter (fun s => s.status = "active")

/-- Embeds `_closeSessionsBatch(sessions)`: for each session, try
`_closeSingleSession` (kill the process — its outcome is `killErr` —
then set the status to `closed`); on success record the closed info and
schedule the deletion, on a kill error record the failed info and leave
the session untouched (the throw happens before the status change). -/
def closeSessionsBatch (killErr : String → Option String) (reg : Registry) :
    List Session → BatchResult
  | [] => { reg := reg, closed := [], failed := [], scheduled := [] }
  | s :: rest =>
    match killErr s.id with
    | none =>
      let reg1 := regUpdate (fun t => { t with status := "closed" }) reg s.id
      let r := closeSessionsBatch killErr reg1 rest
      { r with
        closed := { sessionId := s.id, type := s.type, cwd := s.cwd } :: r.closed,
        scheduled := (s.id, scheduleDeletionDelay) :: r.scheduled }
    | some msg =>
      let r := closeSessionsBatch killErr reg rest
      { r with failed := { sessionId := s.id, error := msg } :: r.failed }

/-- Structure of `_createCloseResult`. -/
structure CloseResult where
  success : Bool
  message : String
  closedSessions : List ClosedInfo
  failedSessions : List FailedInfo
  totalClosed : Nat
  totalFailed : Nat
  deriving Repr, DecidableEq

/-- Embeds `_createCloseResult(success, message, closed, failed)`. -/
def createCloseResult (success : Bool) (message : String)
    (closed : List ClosedInfo) (failed : List FailedInfo) : CloseResult :=
  { success := success, message := message, closedSessions := closed,
    failedSessions := failed, totalClosed := closed.length, totalFailed := failed.length }

/-- Embeds `_generateCloseMessage`. -/
def generateCloseMessage (closedCount failedCount : Nat) : String :=
  if failedCount > 0 then s!"成功关闭 {closedCount} 个会话，{failedCount} 个失败"
  else s!"成功关闭 {closedCount} 个会话"

/-- Embeds `closeAllSessions()`: batch-close every active session; `success`
is `failedSessions.length === 0` (and `true` when there was nothing to
close). -/
def closeAllSessions (killErr : String → Option String) (reg : Registry) :
    Registry × CloseResult :=
  let actives := getActiveSessions reg
  if actives.length = 0 then
    (reg, createCloseResult true "没有活跃的会话需要关闭" [] [])
  else
    let r := closeSessionsBatch killErr reg actives
    (r.reg,
     createCloseResult (r.failed.length = 0)
       (generateCloseMessage r.closed.length r.failed.length) r.closed r.failed)

/-! ## Session-object mutations (for the status-monotonicity claim)

Every function of `TerminalManager` that writes a field of an existing
session object, as a `Session → Session` transformer:
`_handleSessionExit` (the `onExit` callback), `_closeSingleSession`
after a successful kill, `_killActiveSession` in the reaper (pty kill
only, no field change), the `appendOutput` update, and the
`writeToSession` update.  The last two are only reached on an existing
(resp. active) session in the source; applying them unconditionally
here only enlarges the set of interleavings considered. -/
inductive SessionMut where
  | exitCb (code : Int)
  | closeKill
  | reaperKill
  | appendLines (maxLines now : Nat) (data : String)
  | writeInput (now : Nat) (input : String) (addNewline : Bool)
  deriving Repr, DecidableEq

/-- The effect of each mutation on the session object, read off the
corresponding source function. -/
def applySessionMut : SessionMut → Session → Session
  | .exitCb code, s => { s with status := "closed", exitCode := some code }
  | .closeKill, s => { s with status := "closed" }
  | .reaperKill, s => s
  | .appendLines maxLines now data, s =>
    { s with output := addOutputLines maxLines s.output (splitLines data),
             lastActivity := now }
  | .writeInput now input addNewline, s =>
    { s with ptyWrites := s.ptyWrites ++ [if addNewline then input ++ "\r" else input],
             lastActivity := now }

/-! ## Events around a pending `executeCommand` (for the timeout claim)

The three kinds of callback that can fire on a session while an
`executeCommand` is pending, with their effect on the registry:
pty `onData` (→ `appendOutput`), the timeout timer of
`_createExecutionContext` (→ `reject(new Error(...))`, which touches no
session state), and one `_checkCommandCompletion` poll (reads
`session.output`, mutates only the execution context). -/
inductive TmEvent where
  | ptyData (data : String)
  | execTimeout
  | pollCheck
  deriving Repr, DecidableEq

/-- Registry effect of one event, read off the source callbacks. -/
def applyEvent (maxLines now : Nat) (sid : String) (reg : Registry) : TmEvent → Registry
  | .ptyData d => appendOutput maxLines now reg sid d
  | .execTimeout => reg
  | .pollCheck => reg

/-- Run a sequence of events against the registry. -/
def runEvents (maxLines now : Nat) (sid : String) (reg : Registry)
    (evs : List TmEvent) : Registry :=
  evs.foldl (applyEvent maxLines now sid) reg

/-- Whether an event is a pty data delivery. -/
def isPtyDataEv : TmEvent → Bool
  | .ptyData _ => true
  | _ => false

/-- The output lines a session accumulates over a sequence of events
(only the `ptyData` events contribute). -/
def outputAfterEvents (maxLines : Nat) : List String → List TmEvent → List String
  | out, [] => out
  | out, .ptyData d :: rest =>
    outputAfterEvents maxLines (addOutputLines maxLines out (splitLines d)) rest
  | out, _ :: rest => outputAfterEvents maxLines out rest

/-! ## Concrete instances used to instantiate the theorems -/

/-- A freshly created session under id `"a"`. -/
def sampleActiveSession : Session := createSessionData "a" 1 "powershell" "C:\\" 0

/-- The same session after a close transition. -/
def sampleClosedSession : Session := { sampleActiveSession with status := "closed" }

/-- A registry holding one active session. -/
def sampleActiveReg : Registry := [("a", sampleActiveSession)]

/-- A registry holding one closed session. -/
def sampleClosedReg : Registry := [("a", sampleClosedSession)]

/-- The two-poll snapshot trace of a scripted shell that emits the line
`hi` and then the PowerShell prompt line, then goes quiet. -/
def samplePollTrace : List (List String) :=
  [["hi", "PS C:\\>"], ["hi", "PS C:\\>"]]

/-! ## Theorems -/

theorem addOutputLines_eq_lastN (m : Nat) (out nl : List String) :
    addOutputLines m out nl = lastN m (out ++ nl) := by
  simp only [addOutputLines, lastN]
  split
  · rfl
  · next h =>
    rw [Nat.sub_eq_zero_of_le (by omega), List.drop_zero]

theorem lastN_length (m : Nat) (l : List String) :
    (lastN m l).length = min l.length m := by
  simp [lastN]; omega

theorem lastN_append_lastN (m : Nat) (L l : List String) :
    lastN m (lastN m L ++ l) = lastN m (L ++ l) := by
  unfold lastN
  rcases le_or_lt L.length m with h | h
  · rw [show L.length - m = 0 by omega, List.drop_zero]
  · rw [List.drop_append_eq_append_drop, List.drop_append_eq_append_drop,
      List.drop_drop]
    have h1 : (L.drop (L.length - m)).length = m := by simp; omega
    congr 1
    · congr 1
      simp only [List.length_append, h1, List.length_drop]
      omega
    · congr 1
      simp only [List.length_append, h1, List.length_drop]
      omega

theorem foldl_addOutputLines (m : Nat) (L : List String) (batches : List (List String)) :
    batches.foldl (addOutputLines m) (lastN m L) = lastN m (L ++ batches.flatten) := by
  induction batches generalizing L with
  | nil => simp
  | cons b bs ih =>
    simp only [List.foldl_cons, List.flatten_cons]
    rw [addOutputLines_eq_lastN, lastN_append_lastN, ih (L ++ b), List.append_assoc]

/-- C2: starting from an empty buffer, after any sequence of
`_addOutputLines` calls the buffer holds exactly the most recently
appended `min(total, maxOutputLines)` lines in their original order
(the trim drops only the oldest excess lines from the front), and its
length is `min(total, maxOutputLines)`. -/
theorem C2_bounded_buffer (m : Nat) (batches : List (List String)) :
    batches.foldl (addOutputLines m) [] = lastN m batches.flatten ∧
    (batches.foldl (addOutputLines m) []).length = min batches.flatten.length m := by
  have h0 : lastN m ([] : List String) = [] := by simp [lastN]
  have h := foldl_addOutputLines m [] batches
  rw [h0] at h
  simp only [List.nil_append] at h
  exact ⟨h, by rw [h, lastN_length]⟩

/-- C10: `appendOutput` with a session id absent from the registry
returns without modifying the registry or any session (the guard
`if (!session) return`), so a pty data callback arriving after its
session was deleted never faults and never resurrects state. -/
theorem C10_appendOutput_total (maxLines now : Nat) (reg : Registry) (sid data : String)
    (h : regGet reg sid = none) :
    appendOutput maxLines now reg sid data = reg := by
  simp [appendOutput, h]

theorem C10_appendOutput_total_witness :
    appendOutput 1000 5 sampleActiveReg "ghost" "late data\n" = sampleActiveReg :=
  C10_appendOutput_total 1000 5 sampleActiveReg "ghost" "late data\n" (by decide)

/-- C6: a session's status starts as `active` at creation
(`_createSessionData`), and no sequence of session-mutating operations
(exit callback, explicit close kill, reaper kill, output append, input
write) ever turns a `closed` status back into anything else — in
particular the exit callback and the explicit kill path racing on the
same session both leave it `closed`. -/
theorem C6_status_monotonic :
    (∀ (sid : String) (pid : Nat) (terminalType cwd : String) (now : Nat),
      (createSessionData sid pid terminalType cwd now).status = "active") ∧
    (∀ (muts : List SessionMut) (s : Session), s.status = "closed" →
      (muts.foldl (fun t op => applySessionMut op t) s).status = "closed") := by
  refine ⟨fun _ _ _ _ _ => rfl, ?_⟩
  intro muts
  induction muts with
  | nil => intro s h; simpa using h
  | cons op rest ih =>
    intro s h
    simp only [List.foldl_cons]
    apply ih
    cases op <;> simp [applySessionMut] <;> exact h

theorem C6_status_monotonic_witness :
    (createSessionData "a" 1 "powershell" "C:\\" 0).status = "active" ∧
    (([SessionMut.exitCb 0, SessionMut.closeKill, SessionMut.reaperKill,
       SessionMut.appendLines 1000 3 "x", SessionMut.writeInput 4 "dir" true].foldl
        (fun t op => applySessionMut op t) sampleClosedSession).status = "closed") :=
  ⟨C6_status_monotonic.1 "a" 1 "powershell" "C:\\" 0,
   C6_status_monotonic.2 _ sampleClosedSession (by decide)⟩

/-- C7: on a registry entry whose status is not `active`,
`writeToSession` and the synchronous prefix of `executeCommand` fail
with the SessionClosed error, returning the registry unchanged (so
nothing is written to the process); on an id absent from the registry
they fail with the NotFound error; and `writeToSession` succeeds only
when the session exists and is active — never silently on a closed or
absent session. -/
theorem C7_closed_and_absent_rejected (now : Nat) (reg : Registry)
    (sid input command : String) (nl : Bool) :
    (regGet reg sid = none →
      writeToSession now reg sid input nl = (reg, .error (.notFound sid)) ∧
      executeCommandStart now reg sid command = (reg, .error (.notFound sid))) ∧
    (∀ s, regGet reg sid = some s → s.status ≠ "active" →
      writeToSession now reg sid input nl = (reg, .error (.sessionClosed sid)) ∧
      executeCommandStart now reg sid command = (reg, .error (.sessionClosed sid))) ∧
    (∀ regOut, writeToSession now reg sid input nl = (regOut, .ok ()) →
      ∃ s, regGet reg sid = some s ∧ s.status = "active") ∧
    (∀ regOut ctx, executeCommandStart now reg sid command = (regOut, .ok ctx) →
      ∃ s, regGet reg sid = some s ∧ s.status = "active") := by
  refine ⟨?_, ?_, ?_, ?_⟩
  · intro h
    constructor <;>
      simp [writeToSession, executeCommandStart, getActiveSession, getSession, h]
  · intro s hs hstat
    constructor <;>
      simp [writeToSession, executeCommandStart, getActiveSession, getSession, hs, hstat]
  · intro regOut h
    rcases hget : regGet reg sid with _ | s
    · simp [writeToSession, getActiveSession, getSession, hget] at h
    · by_cases hstat : s.status = "active"
      · exact ⟨s, rfl, hstat⟩
      · simp [writeToSession, getActiveSession, getSession, hget, hstat] at h
  · intro regOut ctx h
    rcases hget : regGet reg sid with _ | s
    · simp [executeCommandStart, writeToSession, getActiveSession, getSession, hget] at h
    · by_cases hstat : s.status = "active"
      · exact ⟨s, rfl, hstat⟩
      · simp [executeCommandStart, writeToSession, getActiveSession, getSession,
          hget, hstat] at h

theorem C7_closed_and_absent_rejected_witness :
    (writeToSession 3 sampleClosedReg "a" "echo hi" true =
      (sampleClosedReg, .error (.sessionClosed "a")) ∧
     executeCommandStart 3 sampleClosedReg "a" "echo hi" =
      (sampleClosedReg, .error (.sessionClosed "a"))) ∧
    (writeToSession 3 sampleClosedReg "ghost" "echo hi" true =
      (sampleClosedReg, .error (.notFound "ghost")) ∧
     executeCommandStart 3 sampleClosedReg "ghost" "echo hi" =
      (sampleClosedReg, .error (.notFound "ghost"))) :=
  ⟨(C7_closed_and_absent_rejected 3 sampleClosedReg "a" "echo hi" "echo hi" true).2.1
      sampleClosedSession (by decide) (by decide),
   (C7_closed_and_absent_rejected 3 sampleClosedReg "ghost" "echo hi" "echo hi" true).1
      (by decide)⟩

/-- C8: `createSession` fails with the InvalidArgument error whenever
the working directory is missing or not an absolute path, a spawn
failure propagates as SpawnFailed, and on every failure path the
registry is returned unchanged — no entry registered under any id. -/
theorem C8_create_failure_paths (isAbs : String → Bool)
    (spawn : String → String → Except String Nat) (reg : Registry)
    (typeArg : Option String) (cwd : Option String) (idArg : Option String)
    (freshId : String) (now : Nat) :
    (cwd = none →
      createSession isAbs spawn reg typeArg cwd idArg freshId now =
        (reg, .error .invalidArgument)) ∧
    (∀ c, cwd = some c → isAbs c = false →
      createSession isAbs spawn reg typeArg cwd idArg freshId now =
        (reg, .error .invalidArgument)) ∧
    (∀ shell msg, validateWorkingDirectory isAbs cwd = true →
      getShellPath (typeArg.getD DEFAULT_TYPE) = .ok shell →
      spawn shell (cwd.getD "") = .error msg →
      createSession isAbs spawn reg typeArg cwd idArg freshId now =
        (reg, .error (.spawnFailed msg))) ∧
    (∀ e, (createSession isAbs spawn reg typeArg cwd idArg freshId now).2 = .error e →
      (createSession isAbs spawn reg typeArg cwd idArg freshId now).1 = reg) := by
  refine ⟨?_, ?_, ?_, ?_⟩
  · intro h
    simp [createSession, validateWorkingDirectory, h]
  · intro c hc habs
    simp [createSession, validateWorkingDirectory, hc, habs]
  · intro shell msg hval hshell hspawn
    simp [createSession, hval, hshell, hspawn]
  · intro e
    simp only [createSession]
    split
    · intro _; rfl
    · rcases hshell : getShellPath (typeArg.getD DEFAULT_TYPE) with e' | shell
      · simp [hshell]
      · rcases hspawn : spawn shell (cwd.getD "") with msg | pid
        · simp [hshell, hspawn]
        · simp [hshell, hspawn]

theorem C8_create_failure_paths_witness :
    (createSession (fun _ => false) (fun _ _ => .error "boom") sampleActiveReg
        none (some "relative\\path") none "fresh" 0 =
      (sampleActiveReg, .error .invalidArgument)) ∧
    (createSession (fun _ => true) (fun _ _ => .error "boom") sampleActiveReg
        none (some "C:\\Users") none "fresh" 0 =
      (sampleActiveReg, .error (.spawnFailed "boom"))) :=
  ⟨(C8_create_failure_paths (fun _ => false) (fun _ _ => .error "boom") sampleActiveReg
      none (some "relative\\path") none "fresh" 0).2.1 "relative\\path" rfl rfl,
   (C8_create_failure_paths (fun _ => true) (fun _ _ => .error "boom") sampleActiveReg
      none (some "C:\\Users") none "fresh" 0).2.2.1
      "C:\\Program Files\\PowerShell\\7\\pwsh.exe" "boom" (by decide) rfl rfl⟩

theorem closeSessionsBatch_closed_length (killErr : String → Option String)
    (l : List Session) : ∀ reg : Registry,
    ((closeSessionsBatch killErr reg l).closed).length =
      (l.filter (fun s => (killErr s.id).isNone)).length := by
  induction l with
  | nil => intro reg; rfl
  | cons s rest ih =>
    intro reg
    rcases hk : killErr s.id with _ | msg <;>
      simp [closeSessionsBatch, hk, List.filter_cons, ih]

theorem closeSessionsBatch_failed_length (killErr : String → Option String)
    (l : List Session) : ∀ reg : Registry,
    ((closeSessionsBatch killErr reg l).failed).length =
      (l.filter (fun s => (killErr s.id).isSome)).length := by
  induction l with
  | nil => intro reg; rfl
  | cons s rest ih =>
    intro reg
    rcases hk : killErr s.id with _ | msg <;>
      simp [closeSessionsBatch, hk, List.filter_cons, ih]

/-- C9: `closeAllSessions` closes every active session independently:
whatever subset of the kills throws, the result reports `totalClosed`
= the number of sessions whose kill succeeded, `totalFailed` = the
number whose kill threw, and `success` is true iff `totalFailed` is
zero — one kill failure neither stops the other sessions from being
closed nor escalates to a total failure. -/
theorem C9_close_all_counts (killErr : String → Option String) (reg : Registry) :
    ((closeAllSessions killErr reg).2).totalClosed =
      ((getActiveSessions reg).filter (fun s => (killErr s.id).isNone)).length ∧
    ((closeAllSessions killErr reg).2).totalFailed =
      ((getActiveSessions reg).filter (fun s => (killErr s.id).isSome)).length ∧
    (((closeAllSessions killErr reg).2).success = true ↔
      ((closeAllSessions killErr reg).2).totalFailed = 0) := by
  simp only [closeAllSessions]
  split
  · next hlen =>
    rw [List.length_eq_zero] at hlen
    simp [createCloseResult, hlen]
  · simp [createCloseResult, closeSessionsBatch_closed_length,
      closeSessionsBatch_failed_length]

theorem checkCommandCompletion_startLength (tmType : String) (ctx : ExecCtx)
    (out : List String) :
    ((checkCommandCompletion tmType ctx out).1).startLength = ctx.startLength := by
  simp only [checkCommandCompletion]
  split <;> simp only [updateStabilityCounter] <;> split <;> rfl

theorem checkCommandCompletion_some_eq (tmType : String) (ctx : ExecCtx)
    (out res : List String) (h : (checkCommandCompletion tmType ctx out).2 = some res) :
    res = out.drop ctx.startLength := by
  revert h
  simp only [checkCommandCompletion]
  split <;> intro h <;> simp_all

/-- C1, counterexample: against a scripted shell whose output appended
after the command is the single line `hi` followed by a line matching
the PowerShell prompt pattern, the poll loop of `executeCommand`
resolves with *both* lines — the prompt line is part of the resolved
array, not excluded from it. -/
theorem C1_counterexample :
    pollRun "powershell" (createExecutionContext 0) samplePollTrace =
      some ["hi", "PS C:\\>"] ∧
    psPromptTest "PS C:\\>" = true ∧
    (some ["hi", "PS C:\\>"] : Option (List String)) ≠ some ["hi"] := by
  decide

/-- C1, amended: whenever the poll loop resolves, the resolved array is
exactly the buffer slice from the command's start index — every line
appended after the command was written, *including* the final prompt
line, and never a line appended before the command. -/
theorem C1_resolves_with_full_slice (tmType : String) (ctx : ExecCtx)
    (outs : List (List String)) (res : List String)
    (h : pollRun tmType ctx outs = some res) :
    ∃ out ∈ outs, res = out.drop ctx.startLength := by
  induction outs generalizing ctx with
  | nil => simp [pollRun] at h
  | cons out rest ih =>
    rw [pollRun] at h
    rcases hc : checkCommandCompletion tmType ctx out with ⟨ctx2, o⟩
    rw [hc] at h
    rcases o with _ | r
    · obtain ⟨o2, ho2, hres⟩ := ih ctx2 h
      refine ⟨o2, List.mem_cons_of_mem _ ho2, ?_⟩
      have hst : ctx2.startLength = ctx.startLength := by
        have := checkCommandCompletion_startLength tmType ctx out
        rw [hc] at this
        exact this
      rw [hres, hst]
    · have : res = r := by injection h with h2; exact h2.symm
      subst this
      refine ⟨out, List.mem_cons_self _ _, ?_⟩
      apply checkCommandCompletion_some_eq tmType ctx out
      rw [hc]

theorem C1_resolves_with_full_slice_witness :
    ∃ out ∈ samplePollTrace,
      ["hi", "PS C:\\>"] = out.drop (createExecutionContext 0).startLength :=
  C1_resolves_with_full_slice "powershell" (createExecutionContext 0) samplePollTrace
    ["hi", "PS C:\\>"] (by decide)

theorem isCommandComplete_iff (tmType : String) (ctx : ExecCtx) (out : List String) :
    isCommandComplete tmType ctx out = true ↔
      (1 ≤ ctx.stableCount ∧ out ≠ [] ∧
       hasPrompt tmType (stripAnsiStr (lastTwoJoined out)) = true) := by
  simp only [isCommandComplete]
  split
  · next h =>
    simp only [Bool.false_eq_true, false_iff]
    rcases Bool.or_eq_true _ _ |>.mp h with h1 | h2
    · intro ⟨hs, _, _⟩
      simp only [decide_eq_true_eq] at h1
      omega
    · intro ⟨_, hne, _⟩
      simp only [decide_eq_true_eq, List.length_eq_zero] at h2
      exact hne h2
  · next h =>
    simp only [Bool.or_eq_true, decide_eq_true_eq, not_or] at h
    obtain ⟨h1, h2⟩ := h
    constructor
    · intro hp
      refine ⟨by omega, ?_, hp⟩
      intro hnil
      exact h2 (by simp [hnil])
    · intro ⟨_, _, hp⟩
      exact hp

theorem pollRun_resolves_via_check (tmType : String) (ctx : ExecCtx)
    (outs : List (List String)) (res : List String)
    (h : pollRun tmType ctx outs = some res) :
    ∃ ctx2 out, out ∈ outs ∧ ctx2.startLength = ctx.startLength ∧
      (checkCommandCompletion tmType ctx2 out).2 = some res := by
  induction outs generalizing ctx with
  | nil => simp [pollRun] at h
  | cons out rest ih =>
    rw [pollRun] at h
    rcases hc : checkCommandCompletion tmType ctx out with ⟨ctxNext, o⟩
    rw [hc] at h
    rcases o with _ | r
    · obtain ⟨c2, o2, ho2, hstart, hcc⟩ := ih ctxNext h
      refine ⟨c2, o2, List.mem_cons_of_mem _ ho2, ?_, hcc⟩
      have hst : ctxNext.startLength = ctx.startLength := by
        have := checkCommandCompletion_startLength tmType ctx out
        rw [hc] at this
        exact this
      rw [hstart, hst]
    · have hr : r = res := by injection h
      refine ⟨ctx, out, List.mem_cons_self _ _, rfl, ?_⟩
      rw [hc, hr]

/-- C4: the poll loop resolves only through a completion check, and a
completion check succeeds exactly when, after the stability update, the
counter is at least 1 (buffer length unchanged since the previous
poll), the slice appended since the command is non-empty, and the last
two lines of that slice, joined and stripped of ANSI escapes, match the
terminal-type-specific prompt pattern — the PowerShell pattern for
`powershell` sessions (no generic fallback), the CMD drive-letter
pattern or the generic trailing-`>` fallback for `cmd` sessions. -/
theorem C4_resolution_conditions :
    (∀ (tmType : String) (ctx : ExecCtx) (out : List String),
      ((checkCommandCompletion tmType ctx out).2).isSome = true ↔
        (1 ≤ (updateStabilityCounter ctx out.length).stableCount ∧
         out.drop ctx.startLength ≠ [] ∧
         hasPrompt tmType
           (stripAnsiStr (lastTwoJoined (out.drop ctx.startLength))) = true)) ∧
    (∀ text, hasPrompt "powershell" text = psPromptTest text) ∧
    (∀ text, hasPrompt "cmd" text = (cmdPromptTest text || genericPromptTest text)) ∧
    (∀ (tmType : String) (ctx : ExecCtx) (outs : List (List String)) (res : List String),
      pollRun tmType ctx outs = some res →
      ∃ ctx2 out, out ∈ outs ∧ ctx2.startLength = ctx.startLength ∧
        (checkCommandCompletion tmType ctx2 out).2 = some res) := by
  refine ⟨?_, fun text => rfl, fun text => rfl, pollRun_resolves_via_check⟩
  intro tmType ctx out
  rw [← isCommandComplete_iff tmType (updateStabilityCounter ctx out.length)
    (out.drop ctx.startLength)]
  simp only [checkCommandCompletion]
  split <;> simp_all

theorem C4_resolution_conditions_witness :
    ∃ ctx2 out, out ∈ samplePollTrace ∧
      ctx2.startLength = (createExecutionContext 0).startLength ∧
      (checkCommandCompletion "powershell" ctx2 out).2 = some ["hi", "PS C:\\>"] :=
  C4_resolution_conditions.2.2.2 "powershell" (createExecutionContext 0) samplePollTrace
    ["hi", "PS C:\\>"] (by decide)

theorem regGet_regUpdate_self (f : Session → Session) (reg : Registry) (sid : String) :
    regGet (regUpdate f reg sid) sid = (regGet reg sid).map f := by
  induction reg with
  | nil => rfl
  | cons p rest ih =>
    obtain ⟨k, v⟩ := p
    by_cases h : k = sid <;> simp [regUpdate, regGet, h, ih]

theorem appendOutput_regGet (maxLines now : Nat) (reg : Registry) (sid data : String)
    (s : Session) (h : regGet reg sid = some s) :
    regGet (appendOutput maxLines now reg sid data) sid =
      some { s with output := addOutputLines maxLines s.output (splitLines data),
                    lastActivity := now } := by
  simp [appendOutput, h, regGet_regUpdate_self]

theorem runEvents_regGet (maxLines now : Nat) (sid : String) (evs : List TmEvent) :
    ∀ (reg : Registry) (s : Session), regGet reg sid = some s →
    ∃ la, regGet (runEvents maxLines now sid reg evs) sid =
      some { s with output := outputAfterEvents maxLines s.output evs,
                    lastActivity := la } := by
  induction evs with
  | nil =>
    intro reg s h
    exact ⟨s.lastActivity, by simpa [runEvents, outputAfterEvents] using h⟩
  | cons e rest ih =>
    intro reg s h
    cases e with
    | ptyData d =>
      have h2 := appendOutput_regGet maxLines now reg sid d s h
      obtain ⟨la, hla⟩ := ih (appendOutput maxLines now reg sid d) _ h2
      refine ⟨la, ?_⟩
      simpa [runEvents, outputAfterEvents, applyEvent] using hla
    | execTimeout =>
      obtain ⟨la, hla⟩ := ih reg s h
      exact ⟨la, by simpa [runEvents, outputAfterEvents, applyEvent] using hla⟩
    | pollCheck =>
      obtain ⟨la, hla⟩ := ih reg s h
      exact ⟨la, by simpa [runEvents, outputAfterEvents, applyEvent] using hla⟩

theorem runEvents_filter_ptyData (maxLines now : Nat) (sid : String)
    (evs : List TmEvent) : ∀ reg : Registry,
    runEvents maxLines now sid reg evs =
      runEvents maxLines now sid reg (evs.filter isPtyDataEv) := by
  induction evs with
  | nil => intro reg; rfl
  | cons e rest ih =>
    intro reg
    cases e <;> simp [runEvents, List.filter_cons, isPtyDataEv, applyEvent] <;>
      exact ih _

/-- C5: with an `executeCommand` pending on an active session, firing
the timeout (whose callback only rejects the promise) changes no
session state: over any interleaving of pty data deliveries, the
timeout firing, and further poll checks, the session's status stays
`active`, its buffer accumulates exactly the lines of the pty data
(those delivered after the timeout included), `readSessionOutput`
returns all of them, and the whole run equals the run with the
non-data events removed. -/
theorem C5_timeout_preserves_state (maxLines now : Nat) (sid : String) (reg : Registry)
    (s : Session) (evs : List TmEvent)
    (hs : regGet reg sid = some s) (hact : s.status = "active") :
    ∃ s', regGet (runEvents maxLines now sid reg evs) sid = some s' ∧
      s'.status = "active" ∧
      s'.output = outputAfterEvents maxLines s.output evs ∧
      readSessionOutput (runEvents maxLines now sid reg evs) sid = .ok s'.output ∧
      runEvents maxLines now sid reg evs =
        runEvents maxLines now sid reg (evs.filter isPtyDataEv) := by
  obtain ⟨la, hla⟩ := runEvents_regGet maxLines now sid evs reg s hs
  refine ⟨_, hla, hact, rfl, ?_, runEvents_filter_ptyData maxLines now sid evs reg⟩
  simp [readSessionOutput, getSession, hla]

theorem C5_timeout_preserves_state_witness :
    ∃ s', regGet (runEvents 1000 9 "a" sampleActiveReg
        [TmEvent.execTimeout, TmEvent.ptyData "late\n", TmEvent.pollCheck]) "a" =
          some s' ∧
      s'.status = "active" ∧
      s'.output = outputAfterEvents 1000 sampleActiveSession.output
        [TmEvent.execTimeout, TmEvent.ptyData "late\n", TmEvent.pollCheck] ∧
      readSessionOutput (runEvents 1000 9 "a" sampleActiveReg
        [TmEvent.execTimeout, TmEvent.ptyData "late\n", TmEvent.pollCheck]) "a" =
          .ok s'.output ∧
      runEvents 1000 9 "a" sampleActiveReg
        [TmEvent.execTimeout, TmEvent.ptyData "late\n", TmEvent.pollCheck] =
      runEvents 1000 9 "a" sampleActiveReg
        ([TmEvent.execTimeout, TmEvent.ptyData "late\n",
          TmEvent.pollCheck].filter isPtyDataEv) :=
  C5_timeout_preserves_state 1000 9 "a" sampleActiveReg sampleActiveSession
    [TmEvent.execTimeout, TmEvent.ptyData "late\n", TmEvent.pollCheck]
    (by decide) (by decide)

/-- C3, counterexample: one reaper sweep at `SESSION_TIMEOUT + 1` ms
removes an idle session from the registry although its status is still
`active` — the removal is neither gated on `status == closed` nor
delayed by any grace period. -/
theorem C3_counterexample :
    cleanup SESSION_TIMEOUT 3600001 [("s1", createSessionData "s1" 1 "powershell" "C:\\" 0)]
        = [] ∧
    (createSessionData "s1" 1 "powershell" "C:\\" 0).status = "active" ∧
    (createSessionData "s1" 1 "powershell" "C:\\" 0).status ≠ "closed" := by
  decide

theorem regGet_regDelete_self (reg : Registry) (sid : String) :
    regGet (regDelete reg sid) sid = none := by
  induction reg with
  | nil => rfl
  | cons p rest ih =>
    obtain ⟨k, v⟩ := p
    by_cases h : k = sid <;> simp [regDelete, regGet, h, ih]

theorem regGet_regDelete_ne (reg : Registry) (x sid : String) (h : x ≠ sid) :
    regGet (regDelete reg x) sid = regGet reg sid := by
  induction reg with
  | nil => rfl
  | cons p rest ih =>
    obtain ⟨k, v⟩ := p
    by_cases hk : k = x
    · subst hk
      simp [regDelete, regGet, h, Ne.symm h, ih]
    · by_cases hs : k = sid
      · subst hs
        simp [regDelete, regGet, hk, ih]
      · simp [regDelete, regGet, hk, hs, ih]

theorem regGet_cleanupSessions_none (sids : List String) : ∀ (reg : Registry)
    (sid : String), regGet reg sid = none →
    regGet (cleanupSessions reg sids) sid = none := by
  induction sids with
  | nil => intro reg sid h; exact h
  | cons x xs ih =>
    intro reg sid h
    have hstep : cleanupSessions reg (x :: xs) = cleanupSessions (regDelete reg x) xs := rfl
    rw [hstep]
    apply ih
    by_cases hx : x = sid
    · subst hx; exact regGet_regDelete_self reg x
    · rw [regGet_regDelete_ne reg x sid hx]; exact h

theorem regGet_cleanupSessions_of_mem (sids : List String) : ∀ (reg : Registry)
    (sid : String), sid ∈ sids → regGet (cleanupSessions reg sids) sid = none := by
  induction sids with
  | nil => intro _ _ h; cases h
  | cons x xs ih =>
    intro reg sid h
    have hstep : cleanupSessions reg (x :: xs) = cleanupSessions (regDelete reg x) xs := rfl
    rw [hstep]
    rcases List.mem_cons.mp h with h1 | h2
    · subst h1
      exact regGet_cleanupSessions_none xs _ sid (regGet_regDelete_self reg sid)
    · exact ih _ sid h2

theorem regGet_cleanupSessions_not_mem (sids : List String) : ∀ (reg : Registry)
    (sid : String), sid ∉ sids →
    regGet (cleanupSessions reg sids) sid = regGet reg sid := by
  induction sids with
  | nil => intro _ _ _; rfl
  | cons x xs ih =>
    intro reg sid h
    have hx : x ≠ sid := fun he => h (he ▸ List.mem_cons_self x xs)
    have hxs : sid ∉ xs := fun hm => h (List.mem_cons_of_mem x hm)
    have hstep : cleanupSessions reg (x :: xs) = cleanupSessions (regDelete reg x) xs := rfl
    rw [hstep, ih _ sid hxs, regGet_regDelete_ne reg x sid hx]

theorem mem_identifySessionsForCleanup (timeoutMs now : Nat) (sid : String)
    (reg : Registry) : sid ∈ identifySessionsForCleanup timeoutMs now reg ↔
      ∃ v, (sid, v) ∈ reg ∧ shouldCleanupSession timeoutMs now v = true := by
  induction reg with
  | nil => simp [identifySessionsForCleanup]
  | cons p rest ih =>
    obtain ⟨k, v⟩ := p
    by_cases h : shouldCleanupSession timeoutMs now v = true
    · simp only [identifySessionsForCleanup]
      rw [if_pos h]
      simp only [List.mem_cons, ih, Prod.mk.injEq]
      constructor
      · rintro (rfl | ⟨w, hw, hsw⟩)
        · exact ⟨v, Or.inl ⟨rfl, rfl⟩, h⟩
        · exact ⟨w, Or.inr hw, hsw⟩
      · rintro ⟨w, (⟨rfl, rfl⟩ | hw), hsw⟩
        · exact Or.inl rfl
        · exact Or.inr ⟨w, hw, hsw⟩
    · simp only [identifySessionsForCleanup]
      rw [if_neg h]
      simp only [List.mem_cons, ih, Prod.mk.injEq]
      constructor
      · rintro ⟨w, hw, hsw⟩
        exact ⟨w, Or.inr hw, hsw⟩
      · rintro ⟨w, (⟨rfl, rfl⟩ | hw), hsw⟩
        · exact absurd hsw h
        · exact ⟨w, hw, hsw⟩

theorem regGet_mem (reg : Registry) (sid : String) (s : Session)
    (h : regGet reg sid = some s) : (sid, s) ∈ reg := by
  induction reg with
  | nil => cases h
  | cons p rest ih =>
    obtain ⟨k, v⟩ := p
    by_cases hk : k = sid
    · subst hk
      simp [regGet] at h
      subst h
      exact List.mem_cons_self _ _
    · simp only [regGet, if_neg hk] at h
      exact List.mem_cons_of_mem _ (ih h)

theorem mem_regGet_of_nodup (reg : Registry) (sid : String) (v : Session)
    (hnd : keysNodup reg) (h : (sid, v) ∈ reg) : regGet reg sid = some v := by
  induction reg with
  | nil => cases h
  | cons p rest ih =>
    obtain ⟨k, w⟩ := p
    simp only [keysNodup, List.map_cons, List.nodup_cons] at hnd
    rcases List.mem_cons.mp h with h1 | h2
    · obtain ⟨rfl, rfl⟩ := Prod.mk.injEq .. |>.mp h1
      simp [regGet]
    · have hk : k ≠ sid := by
        intro he
        apply hnd.1
        rw [he]
        exact List.mem_map.mpr ⟨(sid, v), h2, rfl⟩
      simp only [regGet, if_neg hk]
      exact ih hnd.2 h2

theorem closeSessionsBatch_scheduled (killErr : String → Option String)
    (l : List Session) : ∀ (reg : Registry) (p : String × Nat),
    p ∈ (closeSessionsBatch killErr reg l).scheduled → p.2 = scheduleDeletionDelay := by
  induction l with
  | nil => intro reg p h; cases h
  | cons s rest ih =>
    intro reg p h
    rcases hk : killErr s.id with _ | msg <;> rw [closeSessionsBatch, hk] at h
    · rcases List.mem_cons.mp h with h1 | h2
      · rw [h1]
      · exact ih _ p h2
    · exact ih _ p h

/-- C3, amended: registry entries are removed by two distinct paths.
`closeAllSessions` marks each killed session `closed` and schedules its
removal after the 5-second grace delay; the periodic reaper sweep
instead removes, immediately and with no grace delay, exactly the
sessions that are `closed` or idle past the session timeout — an idle
session may still be `active` at the moment of its removal (its process
is killed best-effort). -/
theorem C3_removal_paths :
    (∀ (timeoutMs now : Nat) (reg : Registry) (sid : String), keysNodup reg →
      regGet (cleanup timeoutMs now reg) sid =
        (regGet reg sid).bind
          (fun s => if shouldCleanupSession timeoutMs now s then none else some s)) ∧
    (∀ (killErr : String → Option String) (reg : Registry) (l : List Session)
      (p : String × Nat), p ∈ (closeSessionsBatch killErr reg l).scheduled →
        p.2 = scheduleDeletionDelay) ∧
    scheduleDeletionDelay = 5000 := by
  refine ⟨?_, fun killErr reg l => closeSessionsBatch_scheduled killErr l reg, rfl⟩
  intro timeoutMs now reg sid hnd
  rcases hget : regGet reg sid with _ | s
  · simp only [Option.none_bind]
    exact regGet_cleanupSessions_none _ reg sid hget
  · simp only [Option.some_bind]
    by_cases hsc : shouldCleanupSession timeoutMs now s = true
    · rw [if_pos hsc]
      apply regGet_cleanupSessions_of_mem
      exact (mem_identifySessionsForCleanup timeoutMs now sid reg).mpr
        ⟨s, regGet_mem reg sid s hget, hsc⟩
    · rw [if_neg hsc]
      rw [show cleanup timeoutMs now reg =
        cleanupSessions reg (identifySessionsForCleanup timeoutMs now reg) from rfl]
      rw [regGet_cleanupSessions_not_mem _ reg sid ?_, hget]
      intro hmem
      obtain ⟨w, hw, hsw⟩ := (mem_identifySessionsForCleanup timeoutMs now sid reg).mp hmem
      have := mem_regGet_of_nodup reg sid w hnd hw
      rw [hget] at this
      injection this with hws
      exact hsc (hws ▸ hsw)

theorem C3_removal_paths_witness :
    regGet (cleanup SESSION_TIMEOUT 3600001 sampleActiveReg) "a" =
      (regGet sampleActiveReg "a").bind
        (fun s => if shouldCleanupSession SESSION_TIMEOUT 3600001 s
          then none else some s) ∧
    ((closeSessionsBatch (fun _ => none) sampleActiveReg [sampleActiveSession]).scheduled
        = [("a", 5000)] ∧
      ("a", (5000 : Nat)).2 = scheduleDeletionDelay) :=
  ⟨C3_removal_paths.1 SESSION_TIMEOUT 3600001 sampleActiveReg "a"
     (by unfold keysNodup; decide),
   by decide,
   C3_removal_paths.2.1 (fun _ => none) sampleActiveReg [sampleActiveSession]
     ("a", 5000) (by decide)⟩
